import Mathlib

/-!
# Verification of the nnc NCCH key/IV derivation and section-stream subsystem

This file gives a shallow embedding of the NCCH container subsystem declared in
`include/nnc/ncch.h` of the nnc library and proves the specified properties
about it.  Only the public header of the subsystem is part of the repository
excerpt; the bodies of the derivation engines and the section-stream factory
are therefore modelled from the specification (each such definition carries a
doc comment saying so).  Bytes are `Nat` values below 256, 128-bit quantities
are `Nat` values below 2^128 with explicit reduction where overflow matters,
and fallible operations return `Except NcchError`.
-/

/-- Big-endian byte decomposition: `beBytes n v` is the `n`-byte big-endian
representation of `v` (most significant byte first). -/
def beBytes (n v : Nat) : List Nat :=
  (List.range n).map (fun i => v / 256 ^ (n - 1 - i) % 256)

/-- Big-endian recomposition of a byte list into a natural number. -/
def beNum (bs : List Nat) : Nat :=
  bs.foldl (fun a b => a * 256 + b) 0

/-- 128-bit left rotation, on `Nat` with explicit reduction modulo `2^128`. -/
def rotl128 (v n : Nat) : Nat :=
  (v * 2 ^ n + v / 2 ^ (128 - n)) % 2 ^ 128

/-- Error conditions surfaced by this subsystem (spec section 7). -/
inductive NcchError where
  | corrupt
  | notFound
  | unsupportedCryptMethod
  | seedHashMismatch
  | seedUnavailable
  | outOfRange
deriving DecidableEq, Repr

/-- `NNC_NCCH_FIXED_KEY`: encryption uses fixed key. -/
def NNC_NCCH_FIXED_KEY : Nat := 0x01
/-- `NNC_NCCH_NO_ROMFS`: NCCH doesn't have a RomFS. -/
def NNC_NCCH_NO_ROMFS : Nat := 0x02
/-- `NNC_NCCH_NO_CRYPTO`: NCCH isn't encrypted. -/
def NNC_NCCH_NO_CRYPTO : Nat := 0x04
/-- `NNC_NCCH_USES_SEED`: encryption uses seed. -/
def NNC_NCCH_USES_SEED : Nat := 0x20

/-- `NNC_CRYPT_INITIAL`: used from the initial system version. -/
def NNC_CRYPT_INITIAL : Nat := 0x00
/-- `NNC_CRYPT_700`: used from system version 7.0.0-X. -/
def NNC_CRYPT_700 : Nat := 0x01
/-- `NNC_CRYPT_930`: used from system version 9.3.0-X. -/
def NNC_CRYPT_930 : Nat := 0x0A
/-- `NNC_CRYPT_960`: used from system version 9.6.0-X. -/
def NNC_CRYPT_960 : Nat := 0x0B

/-- Structured NCCH header, mirroring `nnc_ncch_header` of `ncch.h`.
Sizes and offsets of the plain/logo/ExeFS/RomFS regions are in media units
(`NNC_MU_TO_BYTE`); `exheader_size` alone is in bytes. -/
structure NcchHeader where
  keyy : Nat
  content_size : Nat
  partition_id : Nat
  maker_code : List Nat
  version : Nat
  seed_hash : Nat
  title_id : Nat
  logo_hash : List Nat
  product_code : List Nat
  exheader_hash : List Nat
  exheader_size : Nat
  crypt_method : Nat
  platform : Nat
  ctype : Nat
  content_unit : Nat
  flags : Nat
  plain_offset : Nat
  plain_size : Nat
  logo_offset : Nat
  logo_size : Nat
  exefs_offset : Nat
  exefs_size : Nat
  exefs_hash_size : Nat
  romfs_offset : Nat
  romfs_size : Nat
  romfs_hash_size : Nat
  exefs_hash : List Nat
  romfs_hash : List Nat
deriving DecidableEq, Repr

/-- Flag test on the header's flag bitset. -/
def hasFlag (h : NcchHeader) (f : Nat) : Bool :=
  h.flags &&& f != 0

/-- `NNC_MU_TO_BYTE`: one media unit is 0x200 bytes. -/
def muToByte (x : Nat) : Nat := x * 0x200

/-- Keypair collaborator: two independently-settable 128-bit key slots, a
normal-mode slot and a fixed-key slot (spec section 3). -/
structure Keypair where
  normal : Nat
  fixed : Nat
deriving DecidableEq, Repr

/-- Modelled from the spec: the scrambling constant of the `NNC_CRYPT_INITIAL`
ruleset (the implementation of the key derivation engine is not part of the
repository excerpt). -/
def cINITIAL : Nat := 0x2C
/-- Modelled from the spec: scrambling constant of the `NNC_CRYPT_700` ruleset. -/
def c700 : Nat := 0x25
/-- Modelled from the spec: scrambling constant of the `NNC_CRYPT_930` ruleset. -/
def c930 : Nat := 0x18
/-- Modelled from the spec: scrambling constant of the `NNC_CRYPT_960` ruleset. -/
def c960 : Nat := 0x1B
/-- The public key-scrambler addition constant. -/
def keyScramblerC : Nat := 0x1FF9E9AAC5FE0408024591DC5D52768A

/-- Modelled from the spec: closed selection of the scrambling ruleset from
`crypt_method`; exactly the four enumerated values are recognised, everything
else is rejected (spec section 4.1 rule 2). -/
def methodConst (m : Nat) : Option Nat :=
  if m = NNC_CRYPT_INITIAL then some cINITIAL
  else if m = NNC_CRYPT_700 then some c700
  else if m = NNC_CRYPT_930 then some c930
  else if m = NNC_CRYPT_960 then some c960
  else none

/-- Modelled from the spec: the normal-mode key scrambler, applied to KeyX and
KeyY with the ruleset-specific constant `c` (the implementation is not part of
the repository excerpt). -/
def normalKey (c x y : Nat) : Nat :=
  rotl128 ((Nat.xor (rotl128 x 2) y + c + keyScramblerC) % 2 ^ 128) 87

/-- The standard fixed-key constant (spec section 4.1 rule 1). -/
def fixedKeyConstant : Nat := 0x5C

/-- Modelled from the spec: key derived from the keypair's fixed-key slot using
the standard fixed-key constant; depends on nothing else (spec section 4.1
rule 1). -/
def fixedNormalKey (f : Nat) : Nat :=
  Nat.xor f fixedKeyConstant % 2 ^ 128

/-- Modelled from the spec: `nnc_keyy_seed`, the seed remap of the nominal
KeyY: the KeyY actually fed to the scrambler is derived from the nominal KeyY
and the externally supplied seed material through the hash collaborator
(spec section 4.1 rule 3).  `sha` is the external SHA-256 collaborator. -/
def keyySeed (sha : List Nat → List Nat) (keyy : Nat) (seed : List Nat) : Nat :=
  beNum ((sha (beBytes 16 keyy ++ seed)).take 16)

/-- Modelled from the spec: the key derivation engine
`derive_key(header, keypair)` (spec section 4.1); its implementation is not
part of the repository excerpt.  `sha` is the external SHA-256 collaborator
and `lookupSeed` the external seed-lookup collaborator keyed by title id. -/
def derive_key (sha : List Nat → List Nat) (lookupSeed : Nat → Option (List Nat))
    (h : NcchHeader) (kp : Keypair) : Except NcchError Nat :=
  if hasFlag h NNC_NCCH_FIXED_KEY then
    Except.ok (fixedNormalKey kp.fixed)
  else
    match methodConst h.crypt_method with
    | none => Except.error NcchError.unsupportedCryptMethod
    | some c =>
      if hasFlag h NNC_NCCH_USES_SEED then
        match lookupSeed h.title_id with
        | none => Except.error NcchError.seedUnavailable
        | some seed =>
          if beNum ((sha seed).take 4) = h.seed_hash then
            Except.ok (normalKey c kp.normal (keyySeed sha h.keyy seed))
          else
            Except.error NcchError.seedHashMismatch
      else
        Except.ok (normalKey c kp.normal h.keyy)

/-- Section identifier: closed enumeration of the four section kinds
(spec section 3). -/
inductive SectionKind where
  | exheader
  | exefsHeader
  | exefsFile
  | romfs
deriving DecidableEq, Repr

/-- Modelled from the spec: the one-byte legacy IV tag of each section kind,
distinct per section of the closed enumeration (spec section 3); in
particular the ExeFS header and ExeFS files carry different tags even though
they live in the same physical region. -/
def sectionTag : SectionKind → Nat
  | SectionKind.exheader => 1
  | SectionKind.exefsHeader => 2
  | SectionKind.exefsFile => 4
  | SectionKind.romfs => 3

/-- Modelled from the spec: the per-section 32-bit value used by the new IV
layout, specific to the section kind (spec section 4.2) and hence distinct
for the ExeFS header and ExeFS files; the exact low-word packing is flagged
open by the spec, so the legacy tag values are reused. -/
def sectionTag32 : SectionKind → Nat
  | SectionKind.exheader => 1
  | SectionKind.exefsHeader => 2
  | SectionKind.exefsFile => 4
  | SectionKind.romfs => 3

/-- Modelled from the spec: format-version threshold at which the new IV
layout starts being used (spec section 4.2). -/
def newIvVersion : Nat := 1

/-- Modelled from the spec: the IV derivation engine `derive_iv(header,
section)` / `nnc_get_ncch_iv` (spec section 4.2); its implementation is not
part of the repository excerpt.  A pure total function: the high 8 bytes are
the partition id in big-endian order regardless of version; the low 8 bytes
hold either the left-padded 32-bit per-section value (new layout) or the
single-byte section tag in byte position 8 followed by zeros (legacy). -/
def derive_iv (h : NcchHeader) (s : SectionKind) : List Nat :=
  beBytes 8 h.partition_id ++
    (if newIvVersion ≤ h.version then
      beBytes 8 (sectionTag32 s)
    else
      [sectionTag s, 0, 0, 0, 0, 0, 0, 0])

/-- Bounded sub-range view `nnc_subview`: a read-only window of `size` bytes
starting at absolute offset `off` of the backing stream (spec section 4.3). -/
structure Subview where
  off : Nat
  size : Nat
deriving DecidableEq, Repr

/-- Section pseudo-stream `nnc_ncch_section_stream`: either a counter-mode
decrypting view (key, IV, counter-base of the view inside the decrypting
stream, bounded view) or a plain bounded view.  `ksbase` is the absolute
position inside the opened counter-mode stream at which this view begins; it
is 0 for a freshly opened section and the file offset for an ExeFS file view
nested inside the region's decrypting stream. -/
inductive SectionStream where
  | enc (key : Nat) (iv : List Nat) (ksbase : Nat) (sv : Subview)
  | dec (sv : Subview)
deriving DecidableEq, Repr

/-- The bounded view underlying a section stream. -/
def SectionStream.sv : SectionStream → Subview
  | SectionStream.enc _ _ _ s => s
  | SectionStream.dec s => s

/-- Counter-mode keystream byte at absolute stream position `p`, for block
cipher `E` (key, counter block, byte index below 16, giving one byte), key
`key` and 16-byte IV `iv`: the counter block is recomputed from the position,
which is what gives counter mode its random-access seek (spec section 6). -/
def ksByte (E : Nat → Nat → Nat → Nat) (key : Nat) (iv : List Nat) (p : Nat) : Nat :=
  E key ((beNum iv + p / 16) % 2 ^ 128) (p % 16)

/-- The counter-mode primitive applied to a whole buffer from stream position
0: byte `i` of the output is byte `i` of the input XORed with the keystream
byte at position `i`. -/
def ctrCrypt (E : Nat → Nat → Nat → Nat) (key : Nat) (iv : List Nat)
    (buf : List Nat) : List Nat :=
  (List.range buf.length).map (fun i => Nat.xor (buf.getD i 0) (ksByte E key iv i))

/-- Reading `len` bytes at position `pos` of a section stream over backing
stream `data` (byte at absolute position).  A read past the view's bound
fails with `outOfRange`; an encrypted view XORs the keystream recomputed from
the absolute position `ksbase + pos` inside the decrypting stream. -/
def readSection (E : Nat → Nat → Nat → Nat) (data : Nat → Nat) :
    SectionStream → Nat → Nat → Except NcchError (List Nat)
  | SectionStream.enc key iv ksbase sv, pos, len =>
    if pos + len ≤ sv.size then
      Except.ok ((List.range len).map
        (fun i => Nat.xor (data (sv.off + pos + i)) (ksByte E key iv (ksbase + pos + i))))
    else
      Except.error NcchError.outOfRange
  | SectionStream.dec sv, pos, len =>
    if pos + len ≤ sv.size then
      Except.ok ((List.range len).map (fun i => data (sv.off + pos + i)))
    else
      Except.error NcchError.outOfRange

/-- Modelled from the spec: common body of a section-opening entry point
(spec section 4.4): presence has already been checked; build the bounded view
over the declared byte range, return it unwrapped if `NNC_NCCH_NO_CRYPTO` is
set, otherwise derive key and IV and wrap. -/
def openSection (sha : List Nat → List Nat) (lookupSeed : Nat → Option (List Nat))
    (h : NcchHeader) (kp : Keypair) (kind : SectionKind) (off size : Nat) :
    Except NcchError SectionStream :=
  if hasFlag h NNC_NCCH_NO_CRYPTO then
    Except.ok (SectionStream.dec ⟨off, size⟩)
  else
    match derive_key sha lookupSeed h kp with
    | Except.error e => Except.error e
    | Except.ok key => Except.ok (SectionStream.enc key (derive_iv h kind) 0 ⟨off, size⟩)

/-- Modelled from the spec: `nnc_ncch_section_romfs` (its implementation is
not part of the repository excerpt).  Presence check: a RomFS-less container
(zero size, or the `NNC_NCCH_NO_ROMFS` flag) fails with `notFound`. -/
def nnc_ncch_section_romfs (sha : List Nat → List Nat)
    (lookupSeed : Nat → Option (List Nat)) (h : NcchHeader) (kp : Keypair) :
    Except NcchError SectionStream :=
  if h.romfs_size = 0 ∨ hasFlag h NNC_NCCH_NO_ROMFS then
    Except.error NcchError.notFound
  else
    openSection sha lookupSeed h kp SectionKind.romfs
      (muToByte h.romfs_offset) (muToByte h.romfs_size)

/-- Modelled from the spec: `nnc_ncch_section_exefs_header` (its
implementation is not part of the repository excerpt). -/
def nnc_ncch_section_exefs_header (sha : List Nat → List Nat)
    (lookupSeed : Nat → Option (List Nat)) (h : NcchHeader) (kp : Keypair) :
    Except NcchError SectionStream :=
  if h.exefs_size = 0 then
    Except.error NcchError.notFound
  else
    openSection sha lookupSeed h kp SectionKind.exefsHeader
      (muToByte h.exefs_offset) (muToByte h.exefs_size)

/-- Byte offset of the extended-header region on the backing stream (it
directly follows the 0x200-byte NCCH header). -/
def exheaderOffset : Nat := 0x200

/-- The expected extended-header byte size checked by `nnc_ncch_section_exheader`. -/
def nncExheaderSize : Nat := 0x400

/-- Modelled from the spec: `nnc_ncch_section_exheader` (its implementation is
not part of the repository excerpt).  After the presence check it validates
the region's size against `exheader_size`, which is a byte count and is never
rescaled by the media-unit factor; a mismatch is `corrupt`. -/
def nnc_ncch_section_exheader (sha : List Nat → List Nat)
    (lookupSeed : Nat → Option (List Nat)) (h : NcchHeader) (kp : Keypair) :
    Except NcchError SectionStream :=
  if h.exheader_size = 0 then
    Except.error NcchError.notFound
  else if h.exheader_size ≠ nncExheaderSize then
    Except.error NcchError.corrupt
  else
    openSection sha lookupSeed h kp SectionKind.exheader exheaderOffset h.exheader_size

/-- ExeFS file header `nnc_exefs_file_header`: recorded offset and size of the
file within the ExeFS region, in bytes. -/
structure ExefsFileHeader where
  offset : Nat
  size : Nat
deriving DecidableEq, Repr

/-- A further bounded sub-range view inside an already-built section stream:
the window is narrowed to `[off, off+len)` of the stream; for a decrypting
stream the counter base advances with the window so the keystream position is
preserved. -/
def SectionStream.narrow : SectionStream → Nat → Nat → SectionStream
  | SectionStream.enc key iv ksbase sv, off, len =>
    SectionStream.enc key iv (ksbase + off) ⟨sv.off + off, len⟩
  | SectionStream.dec sv, off, len =>
    SectionStream.dec ⟨sv.off + off, len⟩

/-- Modelled from the spec: `nnc_ncch_exefs_subview` (its implementation is
not part of the repository excerpt).  Opens the ExeFS region itself with the
ExeFS-file IV tag, then builds a further bounded sub-range view inside that
already-decrypting stream at the file's recorded offset/length. -/
def nnc_ncch_exefs_subview (sha : List Nat → List Nat)
    (lookupSeed : Nat → Option (List Nat)) (h : NcchHeader) (kp : Keypair)
    (fh : ExefsFileHeader) : Except NcchError SectionStream :=
  if h.exefs_size = 0 then
    Except.error NcchError.notFound
  else
    match openSection sha lookupSeed h kp SectionKind.exefsFile
        (muToByte h.exefs_offset) (muToByte h.exefs_size) with
    | Except.error e => Except.error e
    | Except.ok st => Except.ok (st.narrow fh.offset fh.size)

/-- A handle produced by one of the four Section Stream Factory entry points. -/
def anyFactoryHandle (sha : List Nat → List Nat)
    (lookupSeed : Nat → Option (List Nat)) (h : NcchHeader) (kp : Keypair)
    (st : SectionStream) : Prop :=
  nnc_ncch_section_romfs sha lookupSeed h kp = Except.ok st ∨
  nnc_ncch_section_exefs_header sha lookupSeed h kp = Except.ok st ∨
  nnc_ncch_section_exheader sha lookupSeed h kp = Except.ok st ∨
  ∃ fh, nnc_ncch_exefs_subview sha lookupSeed h kp fh = Except.ok st

/-- The NCCH magic bytes, "NCCH", at byte offset 0x100 of the header. -/
def ncchMagic : List Nat := [0x4E, 0x43, 0x43, 0x48]

/-- Byte `i` of a stream modelled as a byte list (reads past the end give 0;
header parsing validates only the magic, per the spec). -/
def streamByte (s : List Nat) (i : Nat) : Nat := s.getD i 0

/-- Modelled from the spec: `nnc_read_ncch_header` (its implementation is not
part of the repository excerpt).  Magic-number validation only: bad magic is
`corrupt`; otherwise the structured header is decoded, the two string fields
being copied at their fixed lengths and NUL-terminated. -/
def nnc_read_ncch_header (s : List Nat) : Except NcchError NcchHeader :=
  if (List.range 4).map (fun i => streamByte s (0x100 + i)) ≠ ncchMagic then
    Except.error NcchError.corrupt
  else
    Except.ok
      { keyy := beNum ((List.range 16).map (fun i => streamByte s i))
        content_size := beNum ((List.range 4).map (fun i => streamByte s (0x104 + i)))
        partition_id := beNum ((List.range 8).map (fun i => streamByte s (0x108 + i)))
        maker_code := (List.range 2).map (fun i => streamByte s (0x110 + i)) ++ [0]
        version := beNum ((List.range 2).map (fun i => streamByte s (0x112 + i)))
        seed_hash := beNum ((List.range 4).map (fun i => streamByte s (0x114 + i)))
        title_id := beNum ((List.range 8).map (fun i => streamByte s (0x118 + i)))
        logo_hash := (List.range 32).map (fun i => streamByte s (0x130 + i))
        product_code := (List.range 16).map (fun i => streamByte s (0x150 + i)) ++ [0]
        exheader_hash := (List.range 32).map (fun i => streamByte s (0x160 + i))
        exheader_size := beNum ((List.range 4).map (fun i => streamByte s (0x180 + i)))
        crypt_method := streamByte s 0x18B
        platform := streamByte s 0x18C
        ctype := streamByte s 0x18D
        content_unit := streamByte s 0x18E
        flags := streamByte s 0x18F
        plain_offset := beNum ((List.range 4).map (fun i => streamByte s (0x190 + i)))
        plain_size := beNum ((List.range 4).map (fun i => streamByte s (0x194 + i)))
        logo_offset := beNum ((List.range 4).map (fun i => streamByte s (0x198 + i)))
        logo_size := beNum ((List.range 4).map (fun i => streamByte s (0x19C + i)))
        exefs_offset := beNum ((List.range 4).map (fun i => streamByte s (0x1A0 + i)))
        exefs_size := beNum ((List.range 4).map (fun i => streamByte s (0x1A4 + i)))
        exefs_hash_size := beNum ((List.range 4).map (fun i => streamByte s (0x1A8 + i)))
        romfs_offset := beNum ((List.range 4).map (fun i => streamByte s (0x1B0 + i)))
        romfs_size := beNum ((List.range 4).map (fun i => streamByte s (0x1B4 + i)))
        romfs_hash_size := beNum ((List.range 4).map (fun i => streamByte s (0x1B8 + i)))
        exefs_hash := (List.range 32).map (fun i => streamByte s (0x1C0 + i))
        romfs_hash := (List.range 32).map (fun i => streamByte s (0x1E0 + i)) }

/-- Decidable equality of `Except` results, so that concrete runs of the
fallible operations can be checked by evaluation. -/
instance {e a : Type} [DecidableEq e] [DecidableEq a] : DecidableEq (Except e a) :=
  fun x y =>
    match x, y with
    | Except.error u, Except.error v =>
      if h : u = v then Decidable.isTrue (by rw [h])
      else Decidable.isFalse (fun hc => by cases hc; exact h rfl)
    | Except.error _, Except.ok _ => Decidable.isFalse (fun hc => by cases hc)
    | Except.ok _, Except.error _ => Decidable.isFalse (fun hc => by cases hc)
    | Except.ok u, Except.ok v =>
      if h : u = v then Decidable.isTrue (by rw [h])
      else Decidable.isFalse (fun hc => by cases hc; exact h rfl)

/-! ## Concrete instances used to exercise the theorems -/

/-- A concrete header: encrypted, initial crypt method, no seed; RomFS at
media unit 2 (1 unit), ExeFS at media unit 1 (1 unit), 0x400-byte extended
header. -/
def hdrW : NcchHeader :=
  ⟨5, 0, 0x1122334455667788, [0x41, 0x42, 0], 0, 9, 7, [], [0x43, 0], [], 0x400,
   0x00, 1, 1, 0, 0x00, 0, 0, 0, 0, 1, 1, 0, 2, 1, 0, [], []⟩

/-- `hdrW` with the `NNC_NCCH_FIXED_KEY` flag set. -/
def hdrF : NcchHeader :=
  ⟨5, 0, 0x1122334455667788, [0x41, 0x42, 0], 0, 9, 7, [], [0x43, 0], [], 0x400,
   0x00, 1, 1, 0, 0x01, 0, 0, 0, 0, 1, 1, 0, 2, 1, 0, [], []⟩

/-- `hdrW` with the `NNC_NCCH_NO_CRYPTO` flag set. -/
def hdrNC : NcchHeader :=
  ⟨5, 0, 0x1122334455667788, [0x41, 0x42, 0], 0, 9, 7, [], [0x43, 0], [], 0x400,
   0x00, 1, 1, 0, 0x04, 0, 0, 0, 0, 1, 1, 0, 2, 1, 0, [], []⟩

/-- `hdrW` with the `NNC_NCCH_USES_SEED` flag set and the seed hash of the
seed that `lookS` serves. -/
def hdrS : NcchHeader :=
  ⟨5, 0, 0x1122334455667788, [0x41, 0x42, 0], 0, 218959117, 7, [], [0x43, 0], [], 0x400,
   0x00, 1, 1, 0, 0x20, 0, 0, 0, 0, 1, 1, 0, 2, 1, 0, [], []⟩

/-- A header whose RomFS, ExeFS and extended-header regions are all absent. -/
def hdr0 : NcchHeader :=
  ⟨5, 0, 0x1122334455667788, [0x41, 0x42, 0], 0, 9, 7, [], [0x43, 0], [], 0,
   0x00, 1, 1, 0, 0x00, 0, 0, 0, 0, 1, 0, 0, 2, 0, 0, [], []⟩

/-- A header whose extended-header size disagrees with the expected byte
count. -/
def hdrX : NcchHeader :=
  ⟨5, 0, 0x1122334455667788, [0x41, 0x42, 0], 0, 9, 7, [], [0x43, 0], [], 0x300,
   0x00, 1, 1, 0, 0x00, 0, 0, 0, 0, 1, 1, 0, 2, 1, 0, [], []⟩

/-- A concrete keypair. -/
def kpW : Keypair := ⟨3, 11⟩

/-- A concrete stand-in for the SHA-256 collaborator. -/
def shaW : List Nat → List Nat := fun l => List.replicate 32 ((l.foldl Nat.add 7) % 256)

/-- A seed-lookup collaborator that knows no seed. -/
def lookW : Nat → Option (List Nat) := fun _ => none

/-- A seed-lookup collaborator serving the seed `[1, 2, 3]` for title 7. -/
def lookS : Nat → Option (List Nat) := fun t => if t = 7 then some [1, 2, 3] else none

/-- A concrete stand-in for the block-cipher collaborator. -/
def EW : Nat → Nat → Nat → Nat := fun k c i => (k + 3 * c + 5 * i) % 256

/-- A concrete plaintext. -/
def ptW : List Nat := [10, 20, 30, 40]

/-- The key the derivation engine produces for `hdrW` and `kpW`. -/
def keyW : Nat := normalKey cINITIAL kpW.normal hdrW.keyy

/-- The RomFS IV for `hdrW`. -/
def ivW : List Nat := derive_iv hdrW SectionKind.romfs

/-- `ptW` encrypted with the counter-mode primitive under `keyW`/`ivW`. -/
def ctW : List Nat := ctrCrypt EW keyW ivW ptW

/-- A backing stream carrying `ctW` at the RomFS byte range of `hdrW`. -/
def dataW : Nat → Nat := fun n => ctW.getD (n - 0x400) 0

/-- An arbitrary backing stream. -/
def dataB : Nat → Nat := fun n => n % 256

/-- The handle `nnc_ncch_exefs_subview` produces for `hdrW` and the file at
offset 16, size 32. -/
def stFW : SectionStream :=
  SectionStream.enc keyW (derive_iv hdrW SectionKind.exefsFile) 16 ⟨528, 32⟩

/-- The handle `nnc_ncch_section_exefs_header` produces for `hdrW`. -/
def stHW : SectionStream :=
  SectionStream.enc keyW (derive_iv hdrW SectionKind.exefsHeader) 0 ⟨512, 512⟩

/-- The ExeFS region stream opened with the ExeFS-file tag for `hdrW`. -/
def stRW : SectionStream :=
  SectionStream.enc keyW (derive_iv hdrW SectionKind.exefsFile) 0 ⟨512, 512⟩

/-- A block-cipher stand-in whose output is sensitive to the counter byte
that holds the section tag. -/
def EWH : Nat → Nat → Nat → Nat := fun k c i => (k + c / 2 ^ 56 + 5 * i) % 256

/-- A byte stream with a valid NCCH magic: 0x100 zeros, "NCCH", 0x100 ones. -/
def streamW : List Nat := List.replicate 0x100 0 ++ ncchMagic ++ List.replicate 0x100 1

/-- The header `nnc_read_ncch_header` decodes from `streamW`. -/
def hdrParsedW : NcchHeader :=
  ⟨0, 16843009, 72340172838076673, [1, 1, 0], 257, 16843009, 72340172838076673,
   List.replicate 32 1, List.replicate 16 1 ++ [0], List.replicate 32 1, 16843009,
   1, 1, 1, 1, 1, 16843009, 16843009, 16843009, 16843009, 16843009, 16843009,
   16843009, 16843009, 16843009, 16843009, List.replicate 32 1, List.replicate 32 1⟩

/-! ## Helper lemmas -/

theorem getD_range_map {α : Type} (f : Nat → α) (n i : Nat) (d : α) (hi : i < n) :
    ((List.range n).map f).getD i d = f i := by
  rw [List.getD_eq_getElem?_getD, List.getElem?_map, List.getElem?_range hi]
  rfl

theorem xor_cancel_right (a b : Nat) : Nat.xor (Nat.xor a b) b = a := by
  show a ^^^ b ^^^ b = a
  rw [Nat.xor_assoc, Nat.xor_self, Nat.xor_zero]

theorem beBytes_length (n v : Nat) : (beBytes n v).length = n := by
  simp [beBytes]

theorem ctrCrypt_getD (E : Nat → Nat → Nat → Nat) (key : Nat) (iv : List Nat)
    (buf : List Nat) (i : Nat) (hi : i < buf.length) :
    (ctrCrypt E key iv buf).getD i 0 = Nat.xor (buf.getD i 0) (ksByte E key iv i) := by
  unfold ctrCrypt
  exact getD_range_map _ _ _ _ hi

theorem derive_iv_exefs_kinds_distinct (h : NcchHeader) :
    derive_iv h SectionKind.exefsFile ≠ derive_iv h SectionKind.exefsHeader := by
  unfold derive_iv
  by_cases hv : newIvVersion ≤ h.version
  · rw [if_pos hv, if_pos hv]
    intro heq
    exact absurd (List.append_cancel_left heq) (by decide)
  · rw [if_neg hv, if_neg hv]
    intro heq
    exact absurd (List.append_cancel_left heq) (by decide)

theorem openSection_shape (sha : List Nat → List Nat)
    (lookupSeed : Nat → Option (List Nat)) (h : NcchHeader) (kp : Keypair)
    (kind : SectionKind) (off size : Nat) (st : SectionStream)
    (hok : openSection sha lookupSeed h kp kind off size = Except.ok st) :
    st = SectionStream.dec ⟨off, size⟩ ∨
    ∃ k, st = SectionStream.enc k (derive_iv h kind) 0 ⟨off, size⟩ := by
  unfold openSection at hok
  split at hok
  · cases hok
    exact Or.inl rfl
  · split at hok
    · cases hok
    · cases hok
      exact Or.inr ⟨_, rfl⟩

/-! ## Claim theorems -/

/-- C6: IV derivation is a total pure function (it is a Lean function into
`List Nat`, with no error path): for every header and every section kind of
the closed enumeration, whatever the format version, it yields a 16-byte IV
whose high 8 bytes are the partition id in big-endian byte order. -/
theorem iv_total_high_bytes_partition_id (h : NcchHeader) (s : SectionKind) :
    (derive_iv h s).length = 16 ∧
    (derive_iv h s).take 8 = beBytes 8 h.partition_id := by
  constructor
  · unfold derive_iv
    split <;> simp [beBytes_length]
  · have t := List.take_left (beBytes 8 h.partition_id)
      (if newIvVersion ≤ h.version then beBytes 8 (sectionTag32 s)
       else [sectionTag s, 0, 0, 0, 0, 0, 0, 0])
    rw [beBytes_length] at t
    unfold derive_iv
    exact t

/-- C3: with the fixed-key and seed paths out of the way, key derivation
succeeds for exactly the four enumerated `crypt_method` values, producing the
scrambling-rule-specific key for each, and fails with
`unsupportedCryptMethod` for every other byte value. -/
theorem crypt_method_closed_enumeration (sha : List Nat → List Nat)
    (lookupSeed : Nat → Option (List Nat)) (h : NcchHeader) (kp : Keypair)
    (hfix : hasFlag h NNC_NCCH_FIXED_KEY = false)
    (hseed : hasFlag h NNC_NCCH_USES_SEED = false) :
    (h.crypt_method = NNC_CRYPT_INITIAL →
      derive_key sha lookupSeed h kp = Except.ok (normalKey cINITIAL kp.normal h.keyy)) ∧
    (h.crypt_method = NNC_CRYPT_700 →
      derive_key sha lookupSeed h kp = Except.ok (normalKey c700 kp.normal h.keyy)) ∧
    (h.crypt_method = NNC_CRYPT_930 →
      derive_key sha lookupSeed h kp = Except.ok (normalKey c930 kp.normal h.keyy)) ∧
    (h.crypt_method = NNC_CRYPT_960 →
      derive_key sha lookupSeed h kp = Except.ok (normalKey c960 kp.normal h.keyy)) ∧
    (h.crypt_method ≠ NNC_CRYPT_INITIAL → h.crypt_method ≠ NNC_CRYPT_700 →
      h.crypt_method ≠ NNC_CRYPT_930 → h.crypt_method ≠ NNC_CRYPT_960 →
      derive_key sha lookupSeed h kp = Except.error NcchError.unsupportedCryptMethod) := by
  refine ⟨?_, ?_, ?_, ?_, ?_⟩ <;>
    intros <;>
    simp only [NNC_CRYPT_INITIAL, NNC_CRYPT_700, NNC_CRYPT_930, NNC_CRYPT_960] at * <;>
    simp [derive_key, methodConst, hfix, hseed, NNC_CRYPT_INITIAL, NNC_CRYPT_700,
      NNC_CRYPT_930, NNC_CRYPT_960, *]

/-- C4: with `NNC_NCCH_FIXED_KEY` set, the derived key is a function of the
keypair's fixed-key slot alone: it equals the fixed-key derivation, and two
runs on any two fixed-key headers (in particular ones differing only in KeyY,
crypt method or seed state, with any hash/seed collaborators) agree. -/
theorem fixed_key_independent (sha₁ sha₂ : List Nat → List Nat)
    (l₁ l₂ : Nat → Option (List Nat)) (h₁ h₂ : NcchHeader) (kp : Keypair)
    (hf₁ : hasFlag h₁ NNC_NCCH_FIXED_KEY = true)
    (hf₂ : hasFlag h₂ NNC_NCCH_FIXED_KEY = true) :
    derive_key sha₁ l₁ h₁ kp = Except.ok (fixedNormalKey kp.fixed) ∧
    derive_key sha₁ l₁ h₁ kp = derive_key sha₂ l₂ h₂ kp := by
  simp [derive_key, hf₁, hf₂]

/-- C5: with `NNC_NCCH_USES_SEED` set (and a recognised crypt method, no
fixed key): no seed from the collaborator means `seedUnavailable`; a seed
whose SHA-256 prefix disagrees with `seed_hash` means `seedHashMismatch` even
though lookup succeeded; a matching seed makes the scrambler consume the
seed-remapped KeyY rather than `header.keyy` verbatim. -/
theorem seed_path_behavior (sha : List Nat → List Nat)
    (lookupSeed : Nat → Option (List Nat)) (h : NcchHeader) (kp : Keypair)
    (c : Nat) (hfix : hasFlag h NNC_NCCH_FIXED_KEY = false)
    (hseed : hasFlag h NNC_NCCH_USES_SEED = true)
    (hc : methodConst h.crypt_method = some c) :
    (lookupSeed h.title_id = none →
      derive_key sha lookupSeed h kp = Except.error NcchError.seedUnavailable) ∧
    (∀ seed, lookupSeed h.title_id = some seed →
      beNum ((sha seed).take 4) ≠ h.seed_hash →
      derive_key sha lookupSeed h kp = Except.error NcchError.seedHashMismatch) ∧
    (∀ seed, lookupSeed h.title_id = some seed →
      beNum ((sha seed).take 4) = h.seed_hash →
      derive_key sha lookupSeed h kp =
        Except.ok (normalKey c kp.normal (keyySeed sha h.keyy seed))) := by
  refine ⟨?_, ?_, ?_⟩ <;>
    intros <;>
    simp [derive_key, hfix, hseed, hc, *]

/-- C2: with `NNC_NCCH_NO_CRYPTO` set, the RomFS and ExeFS-header entry
points return the bounded view unwrapped over the section's declared byte
range, and reading a plain bounded view yields exactly the backing stream's
raw bytes at that range — no transformation applied. -/
theorem no_crypto_plain_view (sha : List Nat → List Nat)
    (lookupSeed : Nat → Option (List Nat)) (h : NcchHeader) (kp : Keypair)
    (hnc : hasFlag h NNC_NCCH_NO_CRYPTO = true) :
    (h.romfs_size ≠ 0 → hasFlag h NNC_NCCH_NO_ROMFS = false →
      nnc_ncch_section_romfs sha lookupSeed h kp =
        Except.ok (SectionStream.dec ⟨muToByte h.romfs_offset, muToByte h.romfs_size⟩)) ∧
    (h.exefs_size ≠ 0 →
      nnc_ncch_section_exefs_header sha lookupSeed h kp =
        Except.ok (SectionStream.dec ⟨muToByte h.exefs_offset, muToByte h.exefs_size⟩)) ∧
    (∀ (E : Nat → Nat → Nat → Nat) (data : Nat → Nat) (sv : Subview) (pos len : Nat),
      pos + len ≤ sv.size →
      readSection E data (SectionStream.dec sv) pos len =
        Except.ok ((List.range len).map (fun i => data (sv.off + pos + i)))) := by
  refine ⟨?_, ?_, ?_⟩
  · intro hr hf
    simp [nnc_ncch_section_romfs, openSection, hr, hf, hnc]
  · intro he
    simp [nnc_ncch_section_exefs_header, openSection, he, hnc]
  · intro E data sv pos len hb
    simp [readSection, hb]

/-- C7: every section-opening entry point checks presence first: a region the
header declares absent (zero size, or the no-RomFS flag for the RomFS) makes
the call fail with `notFound` — not `corrupt`, and not a zero-length
success. -/
theorem presence_check_not_found (sha : List Nat → List Nat)
    (lookupSeed : Nat → Option (List Nat)) (h : NcchHeader) (kp : Keypair) :
    (h.romfs_size = 0 ∨ hasFlag h NNC_NCCH_NO_ROMFS = true →
      nnc_ncch_section_romfs sha lookupSeed h kp = Except.error NcchError.notFound) ∧
    (h.exefs_size = 0 →
      nnc_ncch_section_exefs_header sha lookupSeed h kp = Except.error NcchError.notFound) ∧
    (h.exheader_size = 0 →
      nnc_ncch_section_exheader sha lookupSeed h kp = Except.error NcchError.notFound) ∧
    (∀ fh : ExefsFileHeader, h.exefs_size = 0 →
      nnc_ncch_exefs_subview sha lookupSeed h kp fh = Except.error NcchError.notFound) := by
  refine ⟨?_, ?_, ?_, ?_⟩
  · intro hr
    rcases hr with hr | hr <;> simp [nnc_ncch_section_romfs, hr]
  · intro he
    simp [nnc_ncch_section_exefs_header, he]
  · intro hx
    simp [nnc_ncch_section_exheader, hx]
  · intro fh he
    simp [nnc_ncch_exefs_subview, he]

/-- C9: `nnc_ncch_section_exheader` validates the region against
`exheader_size` as a byte count and fails with `corrupt` on mismatch; on
success the view's extent is exactly `exheader_size` bytes, never the
media-unit rescaling of it. -/
theorem exheader_size_bytes_corrupt (sha : List Nat → List Nat)
    (lookupSeed : Nat → Option (List Nat)) (h : NcchHeader) (kp : Keypair)
    (hpres : h.exheader_size ≠ 0) :
    (h.exheader_size ≠ nncExheaderSize →
      nnc_ncch_section_exheader sha lookupSeed h kp = Except.error NcchError.corrupt) ∧
    (∀ st, nnc_ncch_section_exheader sha lookupSeed h kp = Except.ok st →
      st.sv = ⟨exheaderOffset, h.exheader_size⟩ ∧
      st.sv.size ≠ muToByte h.exheader_size) := by
  constructor
  · intro hsz
    simp [nnc_ncch_section_exheader, hpres, hsz]
  · intro st hst
    unfold nnc_ncch_section_exheader at hst
    rw [if_neg hpres] at hst
    by_cases hsz : h.exheader_size ≠ nncExheaderSize
    · rw [if_pos hsz] at hst
      cases hst
    · rw [if_neg hsz] at hst
      have hsz' : h.exheader_size = nncExheaderSize := not_not.mp hsz
      unfold openSection at hst
      split at hst
      · cases hst
        constructor
        · rfl
        · simp [SectionStream.sv, hsz', nncExheaderSize, muToByte]
      · split at hst
        · cases hst
        · cases hst
          constructor
          · rfl
          · simp [SectionStream.sv, hsz', nncExheaderSize, muToByte]

/-- C1: round-trip through a factory-produced handle.  If a Section Stream
Factory entry point returned the encrypted handle `st` with key `key`, IV
`iv`, counter base `ksb` and bounded view `sv`, the backing stream carries at
the region's base `b0` the counter-mode encryption of a plaintext `pt`, then
every in-bounds read at any position and chunk size yields exactly the
original plaintext bytes at that offset (the keystream counter is recomputed
from the absolute position, which is the random-access seek). -/
theorem section_stream_roundtrip (E : Nat → Nat → Nat → Nat)
    (sha : List Nat → List Nat) (lookupSeed : Nat → Option (List Nat))
    (h : NcchHeader) (kp : Keypair) (st : SectionStream) (key : Nat)
    (iv : List Nat) (ksb : Nat) (sv : Subview) (b0 : Nat) (pt : List Nat)
    (data : Nat → Nat) (pos len : Nat)
    (hst : anyFactoryHandle sha lookupSeed h kp st)
    (henc : st = SectionStream.enc key iv ksb sv)
    (hb0 : sv.off = b0 + ksb)
    (hdata : ∀ i, i < pt.length → data (b0 + i) = (ctrCrypt E key iv pt).getD i 0)
    (hbound : pos + len ≤ sv.size)
    (hlen : ksb + pos + len ≤ pt.length) :
    readSection E data st pos len =
      Except.ok ((List.range len).map (fun j => pt.getD (ksb + pos + j) 0)) := by
  subst henc
  simp only [readSection]
  rw [if_pos hbound]
  refine congrArg Except.ok (List.map_congr_left ?_)
  intro i hi
  rw [List.mem_range] at hi
  have hipt : ksb + pos + i < pt.length := by omega
  have haddr : sv.off + pos + i = b0 + (ksb + pos + i) := by omega
  rw [haddr, hdata (ksb + pos + i) hipt, ctrCrypt_getD E key iv pt _ hipt,
    xor_cancel_right]

/-- C8 (amended): under the spec's distinct per-section IV tags the file
handle cannot in general read the same bytes as the ExeFS-header stream (the
two kinds' IVs differ; see the counterexample).  What holds is: the file
handle is the bounded view nested at the file's offset inside the ExeFS
region stream opened with the ExeFS-file tag, so reading it from byte 0
equals reading that same-tag region stream at the file's offset; and an
encrypted file handle carries the IV derived for the ExeFS-file section
kind — not the ExeFS-header IV, from which it provably differs. -/
theorem exefs_subview_file_tag (E : Nat → Nat → Nat → Nat)
    (sha : List Nat → List Nat) (lookupSeed : Nat → Option (List Nat))
    (h : NcchHeader) (kp : Keypair) (fh : ExefsFileHeader) (data : Nat → Nat)
    (len : Nat) (stF stR : SectionStream)
    (hsubF : nnc_ncch_exefs_subview sha lookupSeed h kp fh = Except.ok stF)
    (hreg : openSection sha lookupSeed h kp SectionKind.exefsFile
      (muToByte h.exefs_offset) (muToByte h.exefs_size) = Except.ok stR)
    (hl1 : len ≤ fh.size)
    (hl2 : fh.offset + len ≤ muToByte h.exefs_size) :
    readSection E data stF 0 len = readSection E data stR fh.offset len ∧
    (∀ key ivf ksb sv, stF = SectionStream.enc key ivf ksb sv →
      ivf = derive_iv h SectionKind.exefsFile ∧
      ivf ≠ derive_iv h SectionKind.exefsHeader) := by
  unfold nnc_ncch_exefs_subview at hsubF
  by_cases hez : h.exefs_size = 0
  · rw [if_pos hez] at hsubF
    cases hsubF
  · rw [if_neg hez] at hsubF
    rw [hreg] at hsubF
    cases hsubF
    rcases openSection_shape sha lookupSeed h kp SectionKind.exefsFile
        (muToByte h.exefs_offset) (muToByte h.exefs_size) stR hreg with hdec | ⟨k, henc⟩
    · subst hdec
      constructor
      · simp only [SectionStream.narrow, readSection]
        rw [if_pos (by simpa using hl1), if_pos hl2]
        refine congrArg Except.ok (List.map_congr_left ?_)
        intro i hi
        have heq : muToByte h.exefs_offset + fh.offset + 0 + i =
            muToByte h.exefs_offset + fh.offset + i := by omega
        rw [heq]
      · intro key ivf ksb sv hcontra
        simp [SectionStream.narrow] at hcontra
    · subst henc
      constructor
      · simp only [SectionStream.narrow, readSection]
        rw [if_pos (by simpa using hl1), if_pos hl2]
        refine congrArg Except.ok (List.map_congr_left ?_)
        intro i hi
        have h1 : muToByte h.exefs_offset + fh.offset + 0 + i =
            muToByte h.exefs_offset + fh.offset + i := by omega
        have h2 : 0 + fh.offset + 0 + i = 0 + fh.offset + i := by omega
        rw [h1, h2]
      · intro key ivf ksb sv hEq
        simp only [SectionStream.narrow] at hEq
        cases hEq
        exact ⟨rfl, derive_iv_exefs_kinds_distinct h⟩

/-- C10: whenever header parsing succeeds (magic accepted), the string fields
of the output header are NUL-terminated at their fixed lengths: `maker_code`
holds exactly 2 content bytes with a terminating 0 at index 2, and
`product_code` exactly 16 content bytes with a terminating 0 at index 16. -/
theorem read_header_nul_terminated (s : List Nat) (h : NcchHeader)
    (hok : nnc_read_ncch_header s = Except.ok h) :
    h.maker_code.length = 3 ∧ h.maker_code.getD 2 1 = 0 ∧
    h.product_code.length = 17 ∧ h.product_code.getD 16 1 = 0 := by
  unfold nnc_read_ncch_header at hok
  split at hok
  · cases hok
  · cases hok
    refine ⟨by simp, ?_, by simp, ?_⟩
    · show (((List.range 2).map (fun i => streamByte s (0x110 + i))) ++ [0]).getD 2 1 = 0
      rw [List.getD_append_right _ _ 1 2 (by simp)]
      simp
    · show (((List.range 16).map (fun i => streamByte s (0x150 + i))) ++ [0]).getD 16 1 = 0
      rw [List.getD_append_right _ _ 1 16 (by simp)]
      simp

/-! ## Witnesses -/

/-- Witness for C1 at a concrete factory handle, plaintext and backing
stream. -/
theorem section_stream_roundtrip_witness :
    anyFactoryHandle shaW lookW hdrW kpW (SectionStream.enc keyW ivW 0 ⟨0x400, 0x200⟩) ∧
    (Subview.off ⟨0x400, 0x200⟩ = 0x400 + 0) ∧
    (∀ i, i < ptW.length → dataW (0x400 + i) = (ctrCrypt EW keyW ivW ptW).getD i 0) ∧
    (1 + 2 ≤ Subview.size ⟨0x400, 0x200⟩) ∧ (0 + 1 + 2 ≤ ptW.length) ∧
    readSection EW dataW (SectionStream.enc keyW ivW 0 ⟨0x400, 0x200⟩) 1 2 =
      Except.ok ((List.range 2).map (fun j => ptW.getD (0 + 1 + j) 0)) :=
  ⟨Or.inl (by decide), rfl, by decide, by decide, by decide,
    section_stream_roundtrip EW shaW lookW hdrW kpW _ keyW ivW 0 ⟨0x400, 0x200⟩
      0x400 ptW dataW 1 2 (Or.inl (by decide)) rfl rfl (by decide) (by decide)
      (by decide)⟩

/-- Witness for C2 on the no-crypto header. -/
theorem no_crypto_plain_view_witness :
    hasFlag hdrNC NNC_NCCH_NO_CRYPTO = true ∧ hdrNC.romfs_size ≠ 0 ∧
    hasFlag hdrNC NNC_NCCH_NO_ROMFS = false ∧
    nnc_ncch_section_romfs shaW lookW hdrNC kpW =
      Except.ok (SectionStream.dec ⟨muToByte hdrNC.romfs_offset, muToByte hdrNC.romfs_size⟩) :=
  ⟨by decide, by decide, by decide,
    (no_crypto_plain_view shaW lookW hdrNC kpW (by decide)).1 (by decide) (by decide)⟩

/-- Witness for C3 on a header using the initial crypt method. -/
theorem crypt_method_closed_enumeration_witness :
    hasFlag hdrW NNC_NCCH_FIXED_KEY = false ∧ hasFlag hdrW NNC_NCCH_USES_SEED = false ∧
    hdrW.crypt_method = NNC_CRYPT_INITIAL ∧
    derive_key shaW lookW hdrW kpW = Except.ok (normalKey cINITIAL kpW.normal hdrW.keyy) :=
  ⟨by decide, by decide, by decide,
    (crypt_method_closed_enumeration shaW lookW hdrW kpW (by decide) (by decide)).1
      (by decide)⟩

/-- Witness for C4 on the fixed-key header. -/
theorem fixed_key_independent_witness :
    hasFlag hdrF NNC_NCCH_FIXED_KEY = true ∧
    derive_key shaW lookW hdrF kpW = Except.ok (fixedNormalKey kpW.fixed) :=
  ⟨by decide,
    (fixed_key_independent shaW shaW lookW lookW hdrF hdrF kpW (by decide) (by decide)).1⟩

/-- Witness for C5 on the seed header with a matching served seed. -/
theorem seed_path_behavior_witness :
    hasFlag hdrS NNC_NCCH_FIXED_KEY = false ∧ hasFlag hdrS NNC_NCCH_USES_SEED = true ∧
    methodConst hdrS.crypt_method = some cINITIAL ∧
    lookS hdrS.title_id = some [1, 2, 3] ∧
    beNum ((shaW [1, 2, 3]).take 4) = hdrS.seed_hash ∧
    derive_key shaW lookS hdrS kpW =
      Except.ok (normalKey cINITIAL kpW.normal (keyySeed shaW hdrS.keyy [1, 2, 3])) :=
  ⟨by decide, by decide, by decide, by decide, by decide,
    (seed_path_behavior shaW lookS hdrS kpW cINITIAL (by decide) (by decide)
      (by decide)).2.2 [1, 2, 3] (by decide) (by decide)⟩

/-- Witness for C7 on the header with all regions absent. -/
theorem presence_check_not_found_witness :
    hdr0.romfs_size = 0 ∧
    nnc_ncch_section_romfs shaW lookW hdr0 kpW = Except.error NcchError.notFound ∧
    nnc_ncch_section_exefs_header shaW lookW hdr0 kpW = Except.error NcchError.notFound ∧
    nnc_ncch_section_exheader shaW lookW hdr0 kpW = Except.error NcchError.notFound ∧
    nnc_ncch_exefs_subview shaW lookW hdr0 kpW ⟨16, 32⟩ = Except.error NcchError.notFound :=
  ⟨rfl,
    (presence_check_not_found shaW lookW hdr0 kpW).1 (Or.inl rfl),
    (presence_check_not_found shaW lookW hdr0 kpW).2.1 rfl,
    (presence_check_not_found shaW lookW hdr0 kpW).2.2.1 rfl,
    (presence_check_not_found shaW lookW hdr0 kpW).2.2.2 ⟨16, 32⟩ rfl⟩

/-- Counterexample for C8 as stated: the factory-produced file handle and
the ExeFS-header stream read different bytes from the same backing stream at
the same region offset, because their IV tags differ. -/
theorem exefs_subview_header_stream_counterexample :
    nnc_ncch_exefs_subview shaW lookW hdrW kpW ⟨16, 32⟩ = Except.ok stFW ∧
    nnc_ncch_section_exefs_header shaW lookW hdrW kpW = Except.ok stHW ∧
    readSection EWH dataB stFW 0 8 ≠ readSection EWH dataB stHW 16 8 :=
  ⟨by decide, by decide, by decide⟩

/-- Witness for C8 (amended) on a concrete ExeFS file of `hdrW`. -/
theorem exefs_subview_file_tag_witness :
    nnc_ncch_exefs_subview shaW lookW hdrW kpW ⟨16, 32⟩ = Except.ok stFW ∧
    openSection shaW lookW hdrW kpW SectionKind.exefsFile
      (muToByte hdrW.exefs_offset) (muToByte hdrW.exefs_size) = Except.ok stRW ∧
    8 ≤ (⟨16, 32⟩ : ExefsFileHeader).size ∧
    (⟨16, 32⟩ : ExefsFileHeader).offset + 8 ≤ muToByte hdrW.exefs_size ∧
    readSection EWH dataB stFW 0 8 = readSection EWH dataB stRW 16 8 :=
  ⟨by decide, by decide, by decide, by decide,
    (exefs_subview_file_tag EWH shaW lookW hdrW kpW ⟨16, 32⟩ dataB 8 stFW stRW
      (by decide) (by decide) (by decide) (by decide)).1⟩

/-- Witness for C9 on the header with the wrong extended-header byte size. -/
theorem exheader_size_bytes_corrupt_witness :
    hdrX.exheader_size ≠ 0 ∧ hdrX.exheader_size ≠ nncExheaderSize ∧
    nnc_ncch_section_exheader shaW lookW hdrX kpW = Except.error NcchError.corrupt :=
  ⟨by decide, by decide,
    (exheader_size_bytes_corrupt shaW lookW hdrX kpW (by decide)).1 (by decide)⟩

set_option maxRecDepth 20000 in
/-- Witness for C10 on a concrete stream accepted by the magic check. -/
theorem read_header_nul_terminated_witness :
    nnc_read_ncch_header streamW = Except.ok hdrParsedW ∧
    (hdrParsedW.maker_code.length = 3 ∧ hdrParsedW.maker_code.getD 2 1 = 0 ∧
     hdrParsedW.product_code.length = 17 ∧ hdrParsedW.product_code.getD 16 1 = 0) :=
  ⟨by decide, read_header_nul_terminated streamW hdrParsedW (by decide)⟩
